import Mathlib

/-!
Verification development for the per-partition consumer of a pub/sub client
(`pulsar/impl_message.go`, `pulsar/impl_partition_consumer.go`).

The Go code is shallowly embedded: machine integers become `Int`/`Nat` with
explicit two's-complement reinterpretation where Go casts occur, byte strings
become `List Nat`, fallible operations return `Option`, and each stateful
handler becomes a function from its inputs (including the outcomes of its
collaborator calls: lookup, RPC, channel reads) to a result record describing
the commands sent and the state written.
-/

namespace PulsarClient

/-! ## Protobuf wire format for MessageIdData

`Serialize`/`deserializeMessageId` call `proto.Marshal`/`proto.Unmarshal` on a
`pb.MessageIdData` (an external collaborator; the spec assumes the canonical
protobuf wire schema).  The message is

  required uint64 ledgerId = 1; required uint64 entryId = 2;
  optional int32 partition = 3 [default = -1];
  optional int32 batch_index = 4 [default = -1].
-/

/-- Base-128 varint encoding of a natural number, least-significant group
first, as the protobuf wire format produces it. -/
def encodeVarint (n : Nat) : List Nat :=
  if n < 128 then [n]
  else (n % 128 + 128) :: encodeVarint (n / 128)
termination_by n
decreasing_by exact Nat.div_lt_self (by omega) (by omega)

/-- Base-128 varint decoding: consumes continuation bytes (high bit set) and
one final byte, returning the value and the remaining bytes. -/
def parseVarint : List Nat → Option (Nat × List Nat)
  | [] => none
  | b :: rest =>
    if b < 128 then some (b, rest)
    else
      match parseVarint rest with
      | none => none
      | some (v, rest') => some (v * 128 + b % 128, rest')

theorem parseVarint_length (l : List Nat) (v : Nat) (r : List Nat)
    (h : parseVarint l = some (v, r)) : r.length < l.length := by
  induction l generalizing v r with
  | nil => simp [parseVarint] at h
  | cons b rest ih =>
    by_cases hb : b < 128
    · simp [parseVarint, hb] at h
      simp [h.2.symm]
    · simp [parseVarint, hb] at h
      match hr : parseVarint rest with
      | none => rw [hr] at h; simp at h
      | some (v', r') =>
        rw [hr] at h
        simp at h
        have := ih v' r' hr
        simp [← h.2]
        omega

theorem parseVarint_encode (n : Nat) (rest : List Nat) :
    parseVarint (encodeVarint n ++ rest) = some (n, rest) := by
  induction n using Nat.strong_induction_on with
  | _ n ih =>
    rw [encodeVarint]
    split
    · simpa [parseVarint] using by omega
    · have hrec := ih (n / 128) (Nat.div_lt_self (by omega) (by omega))
      simp only [List.cons_append]
      rw [parseVarint]
      simp only [show ¬(n % 128 + 128 < 128) by omega, if_false]
      rw [hrec]
      simp only [Option.some.injEq, Prod.mk.injEq]
      exact ⟨by omega, trivial⟩

/-- The wire-form message identifier `pb.MessageIdData`.  Each field is
`Option`-valued, mirroring the proto2 pointer fields. -/
structure MessageIdData where
  ledgerId : Option Nat
  entryId : Option Nat
  partition : Option Int
  batchIndex : Option Int
deriving DecidableEq, Repr

def emptyMessageIdData : MessageIdData :=
  { ledgerId := none, entryId := none, partition := none, batchIndex := none }

def MessageIdData.getLedgerId (m : MessageIdData) : Nat := m.ledgerId.getD 0

def MessageIdData.getEntryId (m : MessageIdData) : Nat := m.entryId.getD 0

def MessageIdData.getPartition (m : MessageIdData) : Int := m.partition.getD (-1)

def MessageIdData.getBatchIndex (m : MessageIdData) : Int := m.batchIndex.getD (-1)

/-- Go `uint64(x)` for a signed 64-bit value: the two's-complement bit
pattern as a natural number. -/
def int64ToUint64 (x : Int) : Nat := (x % (2 ^ 64)).toNat

/-- Go `int64(u)` for an unsigned 64-bit value: reinterpret the bit
pattern as signed. -/
def uint64ToInt64 (u : Nat) : Int :=
  if u % 2 ^ 64 < 2 ^ 63 then ((u % 2 ^ 64 : Nat) : Int)
  else ((u % 2 ^ 64 : Nat) : Int) - 2 ^ 64

/-- Go `int32(v)` for `v : uint64`: keep the low 32 bits, signed. -/
def int32ofUint64 (v : Nat) : Int :=
  if v % 2 ^ 32 < 2 ^ 31 then ((v % 2 ^ 32 : Nat) : Int)
  else ((v % 2 ^ 32 : Nat) : Int) - 2 ^ 32

/-- Go `int32(x)` for `x : int` (`proto.Int` truncates its argument to 32
bits): two's-complement truncation on `Int`. -/
def intToInt32 (x : Int) : Int := (x + 2 ^ 31) % 2 ^ 32 - 2 ^ 31

/-- `proto.Marshal` on `pb.MessageIdData`: set fields are emitted in
field-number order with wire type 0; int32 values are sign-extended to 64
bits before varint encoding. -/
def marshalMessageIdData (m : MessageIdData) : List Nat :=
  (match m.ledgerId with
   | none => []
   | some v => 8 :: encodeVarint (v % 2 ^ 64)) ++
  (match m.entryId with
   | none => []
   | some v => 16 :: encodeVarint (v % 2 ^ 64)) ++
  (match m.partition with
   | none => []
   | some v => 24 :: encodeVarint (int64ToUint64 v)) ++
  (match m.batchIndex with
   | none => []
   | some v => 32 :: encodeVarint (int64ToUint64 v))

/-- Merging one parsed field into the message: fields 1 and 2 store a
uint64, fields 3 and 4 truncate the varint value to a signed int32; unknown
field numbers are skipped. -/
def applyField (m : MessageIdData) (fieldNum : Nat) (v : Nat) : MessageIdData :=
  if fieldNum = 1 then { m with ledgerId := some (v % 2 ^ 64) }
  else if fieldNum = 2 then { m with entryId := some (v % 2 ^ 64) }
  else if fieldNum = 3 then { m with partition := some (int32ofUint64 v) }
  else if fieldNum = 4 then { m with batchIndex := some (int32ofUint64 v) }
  else m

/-- The `proto.Unmarshal` field loop: read a tag varint, dispatch on the wire
type (0 = varint, 1 = 64-bit, 2 = length-delimited, 5 = 32-bit), skip
unknown fields, and fail on malformed input. -/
def unmarshalFields (data : List Nat) (m : MessageIdData) : Option MessageIdData :=
  if data = [] then some m
  else
    match hd : parseVarint data with
    | none => none
    | some (tag, rest) =>
      if tag % 8 = 0 then
        match hv : parseVarint rest with
        | none => none
        | some (v, rest2) => unmarshalFields rest2 (applyField m (tag / 8) v)
      else if tag % 8 = 2 then
        match hv : parseVarint rest with
        | none => none
        | some (len, rest2) =>
          if len ≤ rest2.length then unmarshalFields (rest2.drop len) m else none
      else if tag % 8 = 1 then
        if 8 ≤ rest.length then unmarshalFields (rest.drop 8) m else none
      else if tag % 8 = 5 then
        if 4 ≤ rest.length then unmarshalFields (rest.drop 4) m else none
      else none
termination_by data.length
decreasing_by
  · have h1 := parseVarint_length _ _ _ hd
    have h2 := parseVarint_length _ _ _ hv
    omega
  · have h1 := parseVarint_length _ _ _ hd
    have h2 := parseVarint_length _ _ _ hv
    have h3 : (rest2.drop len).length = rest2.length - len := List.length_drop _ _
    omega
  · have h1 := parseVarint_length _ _ _ hd
    have h3 : (rest.drop 8).length = rest.length - 8 := List.length_drop _ _
    omega
  · have h1 := parseVarint_length _ _ _ hd
    have h3 : (rest.drop 4).length = rest.length - 4 := List.length_drop _ _
    omega

/-- `proto.Unmarshal` on `pb.MessageIdData`: parse all fields, then fail if a
required field (ledgerId, entryId) is absent. -/
def unmarshalMessageIdData (data : List Nat) : Option MessageIdData :=
  match unmarshalFields data emptyMessageIdData with
  | none => none
  | some m => if m.ledgerId.isSome && m.entryId.isSome then some m else none

/-! ## messageId (impl_message.go) -/

/-- `messageId` (impl_message.go 28-33): Go fields `ledgerID, entryID : int64`
and `batchIdx, partitionIdx : int`. -/
structure messageId where
  ledgerID : Int
  entryID : Int
  batchIdx : Int
  partitionIdx : Int
deriving DecidableEq, Repr

/-- `newMessageId` (impl_message.go 35-42). -/
def newMessageId (ledgerID entryID batchIdx partitionIdx : Int) : messageId :=
  { ledgerID := ledgerID, entryID := entryID,
    batchIdx := batchIdx, partitionIdx := partitionIdx }

/-- `Serialize` (impl_message.go 44-53): build the wire message with
`proto.Uint64(uint64(·))` for ledger/entry and `proto.Int(·)` (an int32
truncation) for batch/partition, then `proto.Marshal`. -/
def messageId.Serialize (id : messageId) : List Nat :=
  marshalMessageIdData
    { ledgerId := some (int64ToUint64 id.ledgerID)
      entryId := some (int64ToUint64 id.entryID)
      partition := some (intToInt32 id.partitionIdx)
      batchIndex := some (intToInt32 id.batchIdx) }

/-- `deserializeMessageId` (impl_message.go 55-69): unmarshal and rebuild via
`newMessageId(int64(GetLedgerId()), int64(GetEntryId()), int(GetBatchIndex()),
int(GetPartition()))`. -/
def deserializeMessageId (data : List Nat) : Option messageId :=
  match unmarshalMessageIdData data with
  | none => none
  | some msgId =>
    some (newMessageId (uint64ToInt64 msgId.getLedgerId)
      (uint64ToInt64 msgId.getEntryId) msgId.getBatchIndex msgId.getPartition)

/-! ## Round-trip lemmas -/

theorem int64ToUint64_lt (x : Int) : int64ToUint64 x < 2 ^ 64 := by
  unfold int64ToUint64
  omega

theorem intToInt32_range (x : Int) :
    -2 ^ 31 ≤ intToInt32 x ∧ intToInt32 x < 2 ^ 31 := by
  unfold intToInt32
  omega

theorem intToInt32_eq_of_range (x : Int) (h1 : -2 ^ 31 ≤ x) (h2 : x < 2 ^ 31) :
    intToInt32 x = x := by
  unfold intToInt32
  omega

theorem uint64ToInt64_int64ToUint64 (x : Int) (h1 : -2 ^ 63 ≤ x) (h2 : x < 2 ^ 63) :
    uint64ToInt64 (int64ToUint64 x) = x := by
  unfold uint64ToInt64 int64ToUint64
  omega

theorem int32ofUint64_int64ToUint64 (x : Int) (h1 : -2 ^ 31 ≤ x) (h2 : x < 2 ^ 31) :
    int32ofUint64 (int64ToUint64 x) = x := by
  unfold int32ofUint64 int64ToUint64
  omega

/-- One wire-type-0 field of the unmarshal loop consumes its tag and value and
recurses on the remaining bytes. -/
theorem unmarshalFields_nil (m : MessageIdData) : unmarshalFields [] m = some m := by
  rw [unmarshalFields]
  simp

theorem unmarshalFields_varint_field (tag v : Nat) (rest : List Nat)
    (m : MessageIdData) (htag : tag % 8 = 0) (hlt : tag < 128) :
    unmarshalFields (tag :: (encodeVarint v ++ rest)) m =
      unmarshalFields rest (applyField m (tag / 8) v) := by
  have hp : parseVarint (tag :: (encodeVarint v ++ rest)) =
      some (tag, encodeVarint v ++ rest) := by
    simp [parseVarint, hlt]
  rw [unmarshalFields]
  rw [if_neg (List.cons_ne_nil _ _)]
  split
  case _ heq => rw [hp] at heq; exact absurd heq (by simp)
  case _ tag1 rest1 heq =>
    rw [hp] at heq
    rw [Option.some.injEq, Prod.mk.injEq] at heq
    obtain ⟨h1, h2⟩ := heq
    subst h1
    subst h2
    rw [if_pos htag]
    split
    case _ heq2 => rw [parseVarint_encode] at heq2; exact absurd heq2 (by simp)
    case _ v1 rest2 heq2 =>
      rw [parseVarint_encode, Option.some.injEq, Prod.mk.injEq] at heq2
      obtain ⟨h3, h4⟩ := heq2
      subst h3
      subst h4
      rfl

theorem unmarshalFields_varint_last (tag v : Nat) (m : MessageIdData)
    (htag : tag % 8 = 0) (hlt : tag < 128) :
    unmarshalFields (tag :: encodeVarint v) m = some (applyField m (tag / 8) v) := by
  have h : (tag :: encodeVarint v : List Nat) = tag :: (encodeVarint v ++ []) := by simp
  rw [h, unmarshalFields_varint_field tag v [] m htag hlt, unmarshalFields_nil]

/-- The wire form of a `messageId` as `Serialize` produces it (ledger/entry as
uint64 bit patterns, batch/partition truncated to int32 by `proto.Int`). -/
def messageId.wireForm (id : messageId) : MessageIdData :=
  { ledgerId := some (int64ToUint64 id.ledgerID)
    entryId := some (int64ToUint64 id.entryID)
    partition := some (intToInt32 id.partitionIdx)
    batchIndex := some (intToInt32 id.batchIdx) }

/-- Unmarshalling a serialized `messageId` always succeeds and yields its
wire form. -/
theorem unmarshal_serialize (id : messageId) :
    unmarshalMessageIdData id.Serialize = some id.wireForm := by
  have hA := int64ToUint64_lt id.ledgerID
  have hB := int64ToUint64_lt id.entryID
  have hpr := intToInt32_range id.partitionIdx
  have hbr := intToInt32_range id.batchIdx
  have hser : id.Serialize =
      8 :: (encodeVarint (int64ToUint64 id.ledgerID % 2 ^ 64) ++
      (16 :: (encodeVarint (int64ToUint64 id.entryID % 2 ^ 64) ++
      (24 :: (encodeVarint (int64ToUint64 (intToInt32 id.partitionIdx)) ++
      (32 :: encodeVarint (int64ToUint64 (intToInt32 id.batchIdx)))))))) := by
    simp [messageId.Serialize, marshalMessageIdData]
  have hfields : unmarshalFields id.Serialize emptyMessageIdData =
      some id.wireForm := by
    rw [hser]
    rw [unmarshalFields_varint_field 8 _ _ _ (by norm_num) (by norm_num)]
    rw [unmarshalFields_varint_field 16 _ _ _ (by norm_num) (by norm_num)]
    rw [unmarshalFields_varint_field 24 _ _ _ (by norm_num) (by norm_num)]
    rw [unmarshalFields_varint_last 32 _ _ (by norm_num) (by norm_num)]
    simp only [applyField, emptyMessageIdData, messageId.wireForm]
    norm_num
    refine ⟨?_, ?_, ?_, ?_⟩
    · omega
    · omega
    · exact int32ofUint64_int64ToUint64 _ hpr.1 hpr.2
    · exact int32ofUint64_int64ToUint64 _ hbr.1 hbr.2
  unfold unmarshalMessageIdData
  rw [hfields]
  rfl

/-- C1: for every MessageID whose four fields lie in their declared ranges
(ledgerID, entryID signed 64-bit; batchIdx, partitionIdx signed 32-bit),
deserializing the byte string produced by Serialize yields a MessageID equal
field-for-field to the original. -/
theorem deserialize_serialize_roundtrip (id : messageId)
    (hl : -2 ^ 63 ≤ id.ledgerID ∧ id.ledgerID < 2 ^ 63)
    (he : -2 ^ 63 ≤ id.entryID ∧ id.entryID < 2 ^ 63)
    (hb : -2 ^ 31 ≤ id.batchIdx ∧ id.batchIdx < 2 ^ 31)
    (hp : -2 ^ 31 ≤ id.partitionIdx ∧ id.partitionIdx < 2 ^ 31) :
    deserializeMessageId id.Serialize = some id := by
  unfold deserializeMessageId
  rw [unmarshal_serialize]
  simp only [messageId.wireForm, MessageIdData.getLedgerId, MessageIdData.getEntryId,
    MessageIdData.getPartition, MessageIdData.getBatchIndex, Option.getD_some]
  rw [uint64ToInt64_int64ToUint64 _ hl.1 hl.2, uint64ToInt64_int64ToUint64 _ he.1 he.2,
    intToInt32_eq_of_range _ hb.1 hb.2, intToInt32_eq_of_range _ hp.1 hp.2]
  rfl

/-- Witness for C1 at the concrete MessageID (7, 3, -1, 5). -/
theorem deserialize_serialize_roundtrip_witness :
    deserializeMessageId (messageId.Serialize ⟨7, 3, -1, 5⟩) = some ⟨7, 3, -1, 5⟩ :=
  deserialize_serialize_roundtrip ⟨7, 3, -1, 5⟩ (by norm_num) (by norm_num)
    (by norm_num) (by norm_num)

/-! ## Consumer-side data model (impl_partition_consumer.go) -/

/-- Errors surfaced by the consumer paths modelled here. -/
inductive Err where
  | connectError (msg : String)
  | unmarshalError
  | rpcError (code : Nat)
  | lookupError (code : Nat)
deriving DecidableEq, Repr

/-- Modelled from the spec: `UnackedMessageTracker` (spec section 3 and 4.2) is
code of this repository whose source file is not under src/; per the spec it
is a set of in-flight ids held in two buckets ("current" and "old").
`Add` records the id in the current bucket unless present in either bucket;
`Remove` deletes it from both; `clear` empties both. -/
structure UnackedMessageTracker where
  currentSet : List MessageIdData
  oldOpenSet : List MessageIdData
deriving DecidableEq, Repr

def UnackedMessageTracker.Add (t : UnackedMessageTracker) (id : MessageIdData) :
    UnackedMessageTracker :=
  if id ∈ t.currentSet ∨ id ∈ t.oldOpenSet then t
  else { t with currentSet := t.currentSet ++ [id] }

def UnackedMessageTracker.Remove (t : UnackedMessageTracker) (id : MessageIdData) :
    UnackedMessageTracker :=
  { currentSet := t.currentSet.filter (fun x => x != id)
    oldOpenSet := t.oldOpenSet.filter (fun x => x != id) }

def UnackedMessageTracker.clear (_t : UnackedMessageTracker) : UnackedMessageTracker :=
  { currentSet := [], oldOpenSet := [] }

/-- `HandlerMessage` (impl_partition_consumer.go 558-562): the local id built
for an inbound broker message.  `newMessageId` takes
(ledgerID, entryID, batchIdx, partitionIdx) and the call site passes
`pc.partitionIdx` as the third argument and `int(msgID.GetBatchIndex())` as
the fourth. -/
def handlerMessageId (partitionIdx : Int) (msgID : MessageIdData) : messageId :=
  newMessageId (uint64ToInt64 msgID.getLedgerId) (uint64ToInt64 msgID.getEntryId)
    partitionIdx msgID.getBatchIndex

/-- C2: evaluating the handler's MessageID construction at a consumer with
partitionIdx 5 and a broker message with batch index 7: the code stores the
consumer's partition index in the batchIdx field and the broker batch index
in the partitionIdx field - the swap of what the claim states (ledger and
entry are taken over unchanged). -/
theorem handler_swaps_batch_and_partition :
    handlerMessageId 5
        { ledgerId := some 10, entryId := some 20, partition := some 0, batchIndex := some 7 } =
      { ledgerID := 10, entryID := 20, batchIdx := 5, partitionIdx := 7 } := by
  decide

/-- `HandlerMessage`, queue-full branch (586-607): under the overflow mutex,
scan the overflow list for a field-wise equal id (`proto.Equal`) and append
the inbound raw id only when no duplicate was found. -/
def overflowAdd (overflow : List MessageIdData) (newMid : MessageIdData) :
    List MessageIdData :=
  if newMid ∈ overflow then overflow else overflow ++ [newMid]

theorem overflowAdd_nodup (l : List MessageIdData) (x : MessageIdData)
    (h : l.Nodup) : (overflowAdd l x).Nodup := by
  unfold overflowAdd
  split
  · exact h
  · rename_i hx
    refine List.nodup_append.mpr ⟨h, List.nodup_singleton x, ?_⟩
    intro b hb hbx
    rw [List.mem_singleton] at hbx
    subst hbx
    exact hx hb

theorem foldl_overflowAdd_nodup (ids : List MessageIdData) :
    ∀ l : List MessageIdData, l.Nodup → (ids.foldl overflowAdd l).Nodup := by
  induction ids with
  | nil => intro l h; exact h
  | cons a as ih => intro l h; exact ih _ (overflowAdd_nodup l a h)

/-- C3: starting from the consumer's initial (empty) overflow list, after any
sequence of queue-full handler calls the overflow list contains each distinct
broker ID at most once. -/
theorem overflow_no_duplicates (ids : List MessageIdData) (mid : MessageIdData) :
    (ids.foldl overflowAdd []).count mid ≤ 1 :=
  List.nodup_iff_count_le_one.mp (foldl_overflowAdd_nodup ids [] List.nodup_nil) mid

/-! ## Redelivery (C4) -/

def maxRedeliverUnacknowledged : Nat := 1000

/-- The chunking loop of `internalRedeliver` (460-474): for `i` stepping by
1000, the slice `overflow[i : min(i+1000, len)]`; equivalently successive
take/drop chunks of at most 1000 elements. -/
def chunksOf (l : List MessageIdData) : List (List MessageIdData) :=
  if l = [] then []
  else l.take maxRedeliverUnacknowledged :: chunksOf (l.drop maxRedeliverUnacknowledged)
termination_by l.length
decreasing_by
  rename_i hne
  have hl : l.length ≠ 0 := fun h0 => hne (List.eq_nil_of_length_eq_zero h0)
  have hm : maxRedeliverUnacknowledged = 1000 := rfl
  simp only [List.length_drop]
  omega

structure CommandRedeliverUnacknowledgedMessages where
  consumerId : Nat
  messageIds : List MessageIdData
deriving DecidableEq, Repr

structure RedeliverResult where
  commands : List CommandRedeliverUnacknowledgedMessages
  overflow : List MessageIdData
  tracker : Option UnackedMessageTracker
  doneSignalled : Bool
deriving DecidableEq, Repr

/-- `internalRedeliver` (448-483): an empty overflow list returns at once -
without signalling the caller's wait group - while a non-empty one sends the
list in chunks of at most 1000 ids, clears the overflow slice and the
tracker, and signals the wait group. -/
def internalRedeliver (consumerID : Nat) (overflow : List MessageIdData)
    (tracker : Option UnackedMessageTracker) : RedeliverResult :=
  if overflow.length = 0 then
    { commands := [], overflow := overflow, tracker := tracker, doneSignalled := false }
  else
    { commands := (chunksOf overflow).map
        (fun c => { consumerId := consumerID, messageIds := c })
      overflow := []
      tracker := tracker.map UnackedMessageTracker.clear
      doneSignalled := true }

/-- C4: evaluating internalRedeliver at an empty overflow list: no command is
sent and the caller's wait group is never signalled, so
`RedeliverUnackedMessages` (435-446), which does `wg.Wait()`, never returns -
contradicting the claim that the empty case is a no-op that completes with
success. -/
theorem internalRedeliver_empty_never_completes :
    internalRedeliver 1 [] (some { currentSet := [], oldOpenSet := [] }) =
      { commands := [], overflow := [],
        tracker := some { currentSet := [], oldOpenSet := [] },
        doneSignalled := false } := by
  decide

/-! ## Acknowledgement (C5, C10) -/

inductive AckType where
  | Individual
  | Cumulative
deriving DecidableEq, Repr

structure CommandAck where
  consumerId : Nat
  messageId : List MessageIdData
  ackType : AckType
deriving DecidableEq, Repr

structure InternalAckResult where
  sentCommand : Option CommandAck
  err : Option Err
  tracker : Option UnackedMessageTracker
  doneSignalled : Bool
deriving DecidableEq, Repr

/-- `internalAckCumulative` (360-385): unmarshal the serialized id (a failed
Unmarshal leaves the freshly allocated id empty and records the error in the
completion record), send ACK{Cumulative,[id]} as a request/response RPC, let
an RPC error overwrite the unmarshal error, and remove the id from the
tracker.  No wait group exists on this path, so nothing is ever signalled. -/
def internalAckCumulative (consumerID : Nat) (serialized : List Nat)
    (rpcErr : Option Err) (tracker : Option UnackedMessageTracker) :
    InternalAckResult :=
  let unres := unmarshalMessageIdData serialized
  let id := unres.getD emptyMessageIdData
  { sentCommand := some { consumerId := consumerID, messageId := [id], ackType := .Cumulative }
    err := match rpcErr with
      | some e => some e
      | none => if unres.isSome then none else some .unmarshalError
    tracker := tracker.map (fun t => t.Remove id)
    doneSignalled := false }

/-- `AckCumulativeID` (350-358): posts the event and immediately returns the
completion record's error field, which is still nil - the caller never waits
for the internal handler to run. -/
def AckCumulativeID (_msgID : messageId) : Option Err := none

/-- C5: with a failing ACK RPC, the internal handler does issue the
ACK{Cumulative,[id]} request/response command and does remove the id from the
tracker, and records the RPC error - but AckCumulativeID has already returned
nil to the caller: no completion handle ever delivers that error. -/
theorem ackCumulative_error_not_delivered :
    AckCumulativeID ⟨1, 2, 0, 3⟩ = none ∧
    internalAckCumulative 9 (messageId.Serialize ⟨1, 2, 0, 3⟩) (some (.rpcError 7))
        (some { currentSet := [messageId.wireForm ⟨1, 2, 0, 3⟩], oldOpenSet := [] }) =
      { sentCommand :=
          some { consumerId := 9, messageId := [messageId.wireForm ⟨1, 2, 0, 3⟩], ackType := .Cumulative },
        err := some (.rpcError 7),
        tracker := some { currentSet := [], oldOpenSet := [] },
        doneSignalled := false } := by
  refine ⟨rfl, ?_⟩
  simp only [internalAckCumulative, unmarshal_serialize]
  decide

/-! ## Close (C6) -/

/-- The consumer lifecycle states (impl_partition_consumer.go 37-44). -/
inductive consumerState where
  | consumerInit
  | consumerReady
  | consumerClosing
  | consumerClosed
deriving DecidableEq, Repr

structure CommandCloseConsumer where
  consumerId : Nat
  requestId : Nat
deriving DecidableEq, Repr

structure CloseResult where
  stateTrace : List consumerState
  finalState : consumerState
  commands : List CommandCloseConsumer
  handlerUnregistered : Bool
  trackerStopped : Bool
  returned : Option Err
deriving DecidableEq, Repr

/-- `internalClose` (508-533): from a non-Ready state just signal the wait
group and return; otherwise assign Closing, send one CLOSE_CONSUMER
request/response, delete the consume handler, and on RPC success assign
Closed (on failure the state stays Closing and the error is returned). -/
def internalClose (st : consumerState) (consumerID requestID : Nat)
    (rpcErr : Option Err) (trackerStopped : Bool) : CloseResult :=
  if st ≠ .consumerReady then
    { stateTrace := [], finalState := st, commands := [],
      handlerUnregistered := false, trackerStopped := trackerStopped, returned := none }
  else
    match rpcErr with
    | some e =>
      { stateTrace := [.consumerClosing], finalState := .consumerClosing,
        commands := [{ consumerId := consumerID, requestId := requestID }],
        handlerUnregistered := true, trackerStopped := trackerStopped,
        returned := some e }
    | none =>
      { stateTrace := [.consumerClosing, .consumerClosed], finalState := .consumerClosed,
        commands := [{ consumerId := consumerID, requestId := requestID }],
        handlerUnregistered := true, trackerStopped := trackerStopped,
        returned := none }

/-- `Close` (387-403): a consumer not in Ready state returns nil immediately
(no event posted, nothing sent, tracker untouched); otherwise the tracker is
stopped, a close event is posted and the caller waits for internalClose. -/
def Close (st : consumerState) (consumerID requestID : Nat) (rpcErr : Option Err)
    (hasTracker : Bool) : CloseResult :=
  if st ≠ .consumerReady then
    { stateTrace := [], finalState := st, commands := [],
      handlerUnregistered := false, trackerStopped := false, returned := none }
  else
    internalClose st consumerID requestID rpcErr hasTracker

/-- C6: close is idempotent.  From any non-Ready state it returns success at
once, sending nothing and leaving the state alone; in Ready state (with the
close RPC succeeding) it sends exactly one CLOSE_CONSUMER, walks
Ready-Closing-Closed, unregisters the handler, and returns success; a second
sequential close then sends nothing and also returns success. -/
theorem close_idempotent (st : consumerState) (cid rid rid0 : Nat)
    (rpc0 : Option Err) (ht : Bool) (hst : st ≠ .consumerReady) :
    ((Close st cid rid0 rpc0 ht).commands = [] ∧
     (Close st cid rid0 rpc0 ht).returned = none ∧
     (Close st cid rid0 rpc0 ht).finalState = st) ∧
    ((Close .consumerReady cid rid none ht).commands =
        [{ consumerId := cid, requestId := rid }] ∧
     (Close .consumerReady cid rid none ht).stateTrace =
        [.consumerClosing, .consumerClosed] ∧
     (Close .consumerReady cid rid none ht).finalState = .consumerClosed ∧
     (Close .consumerReady cid rid none ht).handlerUnregistered = true ∧
     (Close .consumerReady cid rid none ht).returned = none) ∧
    ((Close (Close .consumerReady cid rid none ht).finalState cid rid0 rpc0 ht).commands = [] ∧
     (Close (Close .consumerReady cid rid none ht).finalState cid rid0 rpc0 ht).returned = none) := by
  refine ⟨?_, ?_, ?_⟩
  · unfold Close
    rw [if_pos hst]
    exact ⟨rfl, rfl, rfl⟩
  · simp [Close, internalClose]
  · simp [Close, internalClose]

/-- Witness for C6 at a concrete closed consumer and concrete ids. -/
theorem close_idempotent_witness :
    (Close .consumerClosed 1 3 none true).commands = [] ∧
    (Close .consumerReady 1 2 none true).commands = [{ consumerId := 1, requestId := 2 }] :=
  ⟨(close_idempotent .consumerClosed 1 2 3 none true (by decide)).1.1,
   (close_idempotent .consumerClosed 1 2 3 none true (by decide)).2.1.1⟩

/-! ## Receive (C7) -/

/-- `message` (impl_message.go 94-102): of its fields only the id and payload
bear on the receive-path claims; timestamps, key, properties and topic are
carried by the same record in the source and do not affect these paths. -/
structure message where
  payLoad : List Nat
  msgID : messageId
deriving DecidableEq, Repr

/-- `ConsumerMessage`: the record handed through the delivery queue. -/
structure ConsumerMessage where
  Message : message
deriving DecidableEq, Repr

/-- The outcome of reading the bounded delivery channel: a queued message, or
the channel is closed. -/
inductive ChannelRead where
  | closed
  | item (cm : ConsumerMessage)
deriving DecidableEq, Repr

/-- `Receive` (238-257): Go's select takes a ready branch; the model takes the
ctx branch when the context is already done, otherwise reads the queue.  A
dequeued message has its wire-form id registered with the tracker (when one
exists) and is then returned; a closed queue yields the
ResultConnectError("receive queue closed") error. -/
def Receive (ctxDone : Bool) (ctxErr : Err) (q : ChannelRead)
    (tracker : Option UnackedMessageTracker) :
    Except Err message × Option UnackedMessageTracker :=
  if ctxDone then (.error ctxErr, tracker)
  else
    match q with
    | .closed => (.error (.connectError "receive queue closed"), tracker)
    | .item cm =>
      match unmarshalMessageIdData cm.Message.msgID.Serialize with
      | none => (.error .unmarshalError, tracker)
      | some id => (.ok cm.Message, tracker.map (fun t => t.Add id))

/-- C7: receive returns the context's cancellation error unchanged when the
context is already done; fails with the queue-closed error when the delivery
queue is closed; and otherwise dequeues one message, registers its id with
the tracker when a tracker exists, and returns the message. -/
theorem receive_contract (ctxErr : Err) (q : ChannelRead)
    (tracker : Option UnackedMessageTracker) (cm : ConsumerMessage)
    (t : UnackedMessageTracker) :
    Receive true ctxErr q tracker = (.error ctxErr, tracker) ∧
    Receive false ctxErr .closed tracker =
      (.error (.connectError "receive queue closed"), tracker) ∧
    Receive false ctxErr (.item cm) (some t) =
      (.ok cm.Message, some (t.Add cm.Message.msgID.wireForm)) ∧
    Receive false ctxErr (.item cm) none = (.ok cm.Message, none) := by
  refine ⟨rfl, rfl, ?_, ?_⟩
  · simp [Receive, unmarshal_serialize]
  · simp [Receive, unmarshal_serialize]

/-! ## ReceiveAsync flow control (C8) -/

/-- The high-water mark of `ReceiveAsync` (260):
`uint32(math.Max(float64(cap/2), 1))`, i.e. max(cap/2, 1) with integer
division (the float conversions are exact at channel capacities). -/
def highwater (capacity : Nat) : Nat := max (capacity / 2) 1

structure FlowLoopState where
  receivedSinceFlow : Nat
  flowsSent : List Nat
deriving DecidableEq, Repr

/-- One iteration of the `ReceiveAsync` loop after forwarding a message
(283-290): count it, and once the count reaches the high-water mark send
FLOW(receivedSinceFlow) and reset the count to zero. -/
def receiveAsyncStep (hw : Nat) (s : FlowLoopState) : FlowLoopState :=
  if hw ≤ s.receivedSinceFlow + 1 then
    { receivedSinceFlow := 0, flowsSent := s.flowsSent ++ [s.receivedSinceFlow + 1] }
  else
    { receivedSinceFlow := s.receivedSinceFlow + 1, flowsSent := s.flowsSent }

/-- The loop state after forwarding n messages, starting from a fresh
counter and no per-iteration FLOW sent yet. -/
def receiveAsyncLoop (hw : Nat) : Nat → FlowLoopState
  | 0 => { receivedSinceFlow := 0, flowsSent := [] }
  | n + 1 => receiveAsyncStep hw (receiveAsyncLoop hw n)

/-- `ReceiveAsync` (259-298): all FLOW permit values sent while forwarding n
messages - the initial FLOW(highwater) followed by the per-iteration ones. -/
def receiveAsyncFlows (capacity n : Nat) : List Nat :=
  highwater capacity :: (receiveAsyncLoop (highwater capacity) n).flowsSent

theorem receiveAsyncLoop_spec (hw : Nat) (hhw : 0 < hw) (n : Nat) :
    ∃ k r, n = k * hw + r ∧ r < hw ∧
      receiveAsyncLoop hw n =
        { receivedSinceFlow := r, flowsSent := List.replicate k hw } := by
  induction n with
  | zero => exact ⟨0, 0, by omega, hhw, by simp [receiveAsyncLoop]⟩
  | succ n ih =>
    obtain ⟨k, r, hn, hr, hs⟩ := ih
    by_cases h : hw ≤ r + 1
    · have hrw : r + 1 = hw := by omega
      have hkh : (k + 1) * hw = k * hw + hw := by ring
      refine ⟨k + 1, 0, by omega, hhw, ?_⟩
      rw [receiveAsyncLoop, hs, receiveAsyncStep]
      simp only [if_pos h]
      rw [hrw, ← List.replicate_succ']
    · refine ⟨k, r + 1, by omega, by omega, ?_⟩
      rw [receiveAsyncLoop, hs, receiveAsyncStep]
      simp [if_neg h]

/-- C8: receiveAsync first sends FLOW(high) with high = max(cap/2, 1), and
after forwarding n messages has sent one further FLOW per high messages
forwarded, each carrying exactly the count (= high) received since the last
FLOW, with the running count reset to n mod high. -/
theorem receiveAsync_flow_cadence (capacity n : Nat) :
    highwater capacity = max (capacity / 2) 1 ∧
    receiveAsyncFlows capacity n =
      highwater capacity ::
        List.replicate (n / highwater capacity) (highwater capacity) ∧
    (receiveAsyncLoop (highwater capacity) n).receivedSinceFlow =
      n % highwater capacity := by
  have hhw : 0 < highwater capacity := by
    unfold highwater
    omega
  obtain ⟨k, r, hn, hr, hs⟩ := receiveAsyncLoop_spec (highwater capacity) hhw n
  have hdiv : n / highwater capacity = k := by
    rw [hn, Nat.mul_comm k (highwater capacity), Nat.mul_add_div hhw,
      Nat.div_eq_of_lt hr]
    omega
  have hmod : n % highwater capacity = r := by
    rw [hn, Nat.mul_comm k (highwater capacity), Nat.mul_add_mod,
      Nat.mod_eq_of_lt hr]
  refine ⟨rfl, ?_, ?_⟩
  · rw [receiveAsyncFlows, hs, hdiv]
  · rw [hs, hmod]

/-! ## Subscribe / reconnect (C9) -/

structure CommandSubscribe where
  requestId : Nat
  topic : String
  subscription : String
  consumerId : Nat
  consumerName : String
deriving DecidableEq, Repr

/-- The consumer fields read or written by grabCnx and reconnectToBroker
(struct partitionConsumer, 51-69): `consumerID`, the topic and the options
(subscription name, name) are set at construction and never reassigned;
`consumerName` and `cnx` are rewritten by each grabCnx. -/
structure partitionConsumer where
  state : consumerState
  topic : String
  subscriptionName : String
  name : String
  consumerName : Option String
  consumerID : Nat
  cnx : Nat
deriving DecidableEq, Repr

inductive RespType where
  | success
  | error
  | other
deriving DecidableEq, Repr

/-- One attempt's environment: the collaborator outcomes grabCnx observes
(lookup result, allocated request id, RPC transport outcome, optional stats
consumer name in the response, response type, new connection, flow
outcome). -/
structure GrabEnv where
  lookupOk : Bool
  requestId : Nat
  rpcErr : Bool
  statsConsumerName : Option String
  respType : RespType
  newCnx : Nat
  flowErr : Bool
deriving DecidableEq, Repr

structure GrabResult where
  pc : partitionConsumer
  subscribeSent : Option CommandSubscribe
  ok : Bool
deriving DecidableEq, Repr

/-- `grabCnx` (146-194): look up the topic; send SUBSCRIBE built from the
consumer's fields (subscription from the options, consumer id allocated at
construction); on a response record the stats consumer name and the new
connection; on SUCCESS register the consume handler and issue the initial
flow; ERROR and unexpected responses fail. -/
def grabCnx (pc : partitionConsumer) (env : GrabEnv) : GrabResult :=
  if !env.lookupOk then { pc := pc, subscribeSent := none, ok := false }
  else
    let cmd : CommandSubscribe :=
      { requestId := env.requestId, topic := pc.topic,
        subscription := pc.subscriptionName, consumerId := pc.consumerID,
        consumerName := pc.name }
    if env.rpcErr then { pc := pc, subscribeSent := some cmd, ok := false }
    else
      let pc1 := { pc with
        consumerName := match env.statsConsumerName with
          | some n => some n
          | none => pc.consumerName,
        cnx := env.newCnx }
      match env.respType with
      | .success => { pc := pc1, subscribeSent := some cmd, ok := !env.flowErr }
      | .error => { pc := pc1, subscribeSent := some cmd, ok := false }
      | .other => { pc := pc1, subscribeSent := some cmd, ok := false }

/-- `reconnectToBroker` (648-668): while the consumer is Ready, retry grabCnx
until one attempt succeeds (the backoff sleep affects no commands), returning
the final consumer fields and every SUBSCRIBE sent along the way. -/
def reconnectToBroker (pc : partitionConsumer) :
    List GrabEnv → partitionConsumer × List CommandSubscribe
  | [] => (pc, [])
  | env :: rest =>
    if pc.state ≠ .consumerReady then (pc, [])
    else
      let r := grabCnx pc env
      let cmds := match r.subscribeSent with
        | some c => [c]
        | none => []
      if r.ok then (r.pc, cmds)
      else
        let next := reconnectToBroker r.pc rest
        (next.1, cmds ++ next.2)

theorem grabCnx_preserves_fields (pc : partitionConsumer) (env : GrabEnv) :
    (grabCnx pc env).pc.consumerID = pc.consumerID ∧
    (grabCnx pc env).pc.subscriptionName = pc.subscriptionName ∧
    (grabCnx pc env).pc.topic = pc.topic ∧
    (grabCnx pc env).pc.name = pc.name ∧
    (grabCnx pc env).pc.state = pc.state := by
  unfold grabCnx
  split
  · exact ⟨rfl, rfl, rfl, rfl, rfl⟩
  · split
    · exact ⟨rfl, rfl, rfl, rfl, rfl⟩
    · cases env.respType <;> exact ⟨rfl, rfl, rfl, rfl, rfl⟩

theorem grabCnx_subscribe_cases (pc : partitionConsumer) (env : GrabEnv) :
    (grabCnx pc env).subscribeSent = none ∨
    (grabCnx pc env).subscribeSent =
      some { requestId := env.requestId, topic := pc.topic,
             subscription := pc.subscriptionName, consumerId := pc.consumerID,
             consumerName := pc.name } := by
  unfold grabCnx
  split
  · exact Or.inl rfl
  · split
    · exact Or.inr rfl
    · cases env.respType
      · exact Or.inr rfl
      · exact Or.inr rfl
      · exact Or.inr rfl

theorem grabCnx_subscribe_identity (pc : partitionConsumer) (env : GrabEnv)
    (c : CommandSubscribe) (h : (grabCnx pc env).subscribeSent = some c) :
    c.consumerId = pc.consumerID ∧ c.subscription = pc.subscriptionName := by
  rcases grabCnx_subscribe_cases pc env with hn | hs
  · rw [hn] at h
    exact absurd h (by simp)
  · rw [hs, Option.some.injEq] at h
    subst h
    exact ⟨rfl, rfl⟩

/-- C9: for every consumer and every sequence of reconnect attempts, the
consumer id and subscription name fields are never reassigned, and every
SUBSCRIBE command sent by any grabCnx in the sequence carries exactly the
consumer id and subscription name the consumer was constructed with - hence
the same values as the original subscribe. -/
theorem reconnect_preserves_identity (pc : partitionConsumer)
    (envs : List GrabEnv) :
    (reconnectToBroker pc envs).1.consumerID = pc.consumerID ∧
    (reconnectToBroker pc envs).1.subscriptionName = pc.subscriptionName ∧
    ∀ c ∈ (reconnectToBroker pc envs).2,
      c.consumerId = pc.consumerID ∧ c.subscription = pc.subscriptionName := by
  induction envs generalizing pc with
  | nil => simp [reconnectToBroker]
  | cons env rest ih =>
    rw [reconnectToBroker]
    split
    · simp
    · have hf := grabCnx_preserves_fields pc env
      obtain ⟨ihc, ihs, ihm⟩ := ih (grabCnx pc env).pc
      by_cases hok : (grabCnx pc env).ok = true
      · rw [if_pos hok]
        refine ⟨hf.1, hf.2.1, ?_⟩
        intro c hc
        have hc0 : c ∈ (match (grabCnx pc env).subscribeSent with
            | some c0 => [c0]
            | none => []) := hc
        cases hsub : (grabCnx pc env).subscribeSent with
        | none => rw [hsub] at hc0; simp at hc0
        | some c0 =>
          rw [hsub] at hc0
          rw [List.mem_singleton] at hc0
          subst hc0
          exact grabCnx_subscribe_identity pc env c hsub
      · rw [if_neg hok]
        refine ⟨?_, ?_, ?_⟩
        · show (reconnectToBroker (grabCnx pc env).pc rest).1.consumerID = pc.consumerID
          rw [ihc, hf.1]
        · show (reconnectToBroker (grabCnx pc env).pc rest).1.subscriptionName =
            pc.subscriptionName
          rw [ihs, hf.2.1]
        · intro c hc
          have hc0 : c ∈ (match (grabCnx pc env).subscribeSent with
              | some c0 => [c0]
              | none => []) ++ (reconnectToBroker (grabCnx pc env).pc rest).2 := hc
          rw [List.mem_append] at hc0
          cases hc0 with
          | inl hm =>
            cases hsub : (grabCnx pc env).subscribeSent with
            | none => rw [hsub] at hm; simp at hm
            | some c0 =>
              rw [hsub] at hm
              rw [List.mem_singleton] at hm
              subst hm
              exact grabCnx_subscribe_identity pc env c hsub
          | inr hm =>
            obtain ⟨h1, h2⟩ := ihm c hm
            exact ⟨by rw [h1, hf.1], by rw [h2, hf.2.1]⟩

/-- Witness for C9: one reconnect attempt of a concrete Ready consumer; the
SUBSCRIBE it sends carries consumer id 42 and subscription "sub". -/
theorem reconnect_preserves_identity_witness :
    (⟨11, "t", "sub", 42, "n"⟩ : CommandSubscribe).consumerId = 42 ∧
    (⟨11, "t", "sub", 42, "n"⟩ : CommandSubscribe).subscription = "sub" :=
  (reconnect_preserves_identity
      ⟨.consumerReady, "t", "sub", "n", none, 42, 0⟩
      [⟨true, 11, false, none, .success, 5, false⟩]).2.2
    ⟨11, "t", "sub", 42, "n"⟩ (by decide)

/-! ## Individual ack (C10) -/

/-- `internalAck` (317-344): unmarshal the serialized id into a freshly
allocated wire id (a failure records the error in the completion record but
the handler proceeds with the still-empty id), append it to the command's id
list, send ACK{Individual,[id]} fire-and-forget, let an RPC error overwrite
the unmarshal error, remove the id from the tracker, and signal the wait
group. -/
def internalAck (consumerID : Nat) (serialized : List Nat) (rpcErr : Option Err)
    (tracker : Option UnackedMessageTracker) : InternalAckResult :=
  let unres := unmarshalMessageIdData serialized
  let id := unres.getD emptyMessageIdData
  { sentCommand := some { consumerId := consumerID, messageId := [id], ackType := .Individual }
    err := match rpcErr with
      | some e => some e
      | none => if unres.isSome then none else some .unmarshalError
    tracker := tracker.map (fun t => t.Remove id)
    doneSignalled := true }

/-- C10: when deserialization of the message id fails inside internalAck, the
handler nevertheless proceeds: the ACK{Individual} command is still sent
carrying the empty id, the empty id is still removed from the tracker, the
wait group is signalled, and the completion record carries an error - the ack
is not atomic. -/
theorem internalAck_proceeds_on_bad_id (cid : Nat) (serialized : List Nat)
    (rpcErr : Option Err) (tracker : Option UnackedMessageTracker)
    (h : unmarshalMessageIdData serialized = none) :
    (internalAck cid serialized rpcErr tracker).sentCommand =
      some { consumerId := cid, messageId := [emptyMessageIdData], ackType := .Individual } ∧
    (internalAck cid serialized rpcErr tracker).tracker =
      tracker.map (fun t => t.Remove emptyMessageIdData) ∧
    (internalAck cid serialized rpcErr tracker).err ≠ none ∧
    (internalAck cid serialized rpcErr tracker).doneSignalled = true := by
  simp only [internalAck, h]
  cases rpcErr <;> simp

/-- Witness for C10 at the concrete malformed byte string [] (both required
fields missing, so Unmarshal fails). -/
theorem internalAck_proceeds_on_bad_id_witness :
    (internalAck 3 [] none (some { currentSet := [], oldOpenSet := [] })).sentCommand =
      some { consumerId := 3, messageId := [emptyMessageIdData], ackType := .Individual } ∧
    (internalAck 3 [] none (some { currentSet := [], oldOpenSet := [] })).tracker =
      (some { currentSet := [], oldOpenSet := [] } :
          Option UnackedMessageTracker).map (fun t => t.Remove emptyMessageIdData) ∧
    (internalAck 3 [] none (some { currentSet := [], oldOpenSet := [] })).err ≠ none ∧
    (internalAck 3 [] none (some { currentSet := [], oldOpenSet := [] })).doneSignalled = true :=
  internalAck_proceeds_on_bad_id 3 [] none (some { currentSet := [], oldOpenSet := [] })
    (by unfold unmarshalMessageIdData; rw [unmarshalFields_nil]; rfl)

end PulsarClient
